import Mathlib

/-!
Verification of the ScholarshipClustering core (src/utils/clustering.py) of the
Scholar_Sphere repository, as a shallow embedding in Lean 4.

Modelling conventions:
* Machine floats are modelled as exact rationals (`ℚ`); dates are modelled as an
  integer epoch-day, with `pd.Timestamp.now()` passed in as the parameter `now`.
* A scholarship record carries the fields the clustering core reads; `deadline`
  is a parse outcome (a parseable date, a missing value which pandas turns into
  `NaT`, or a malformed string on which `pd.to_datetime` raises).
* scikit-learn collaborators with simple deterministic contracts (LabelEncoder,
  DBSCAN, the k-distance computation of NearestNeighbors, np.percentile, the
  silhouette formula and its input validation) are embedded directly.  The
  numeric cores whose exact iteration is internal to scikit-learn (KMeans with
  a fixed seed, AgglomerativeClustering, StandardScaler's per-column affine
  map, the Euclidean distance matrix of a standardized feature matrix) are
  abstracted as the function parameters bundled in `SKModel`; theorems assume
  only their documented contracts.
* `(None, None)` results of `cluster_scholarships` are `ClusterOutcome` with
  `result = none`; the `st.error` diagnostic of the `except` handler is the
  `diagnostic` field.  The mutable `self.label_encoders` dict is `EngineState`.
-/

deriving instance DecidableEq for Except

namespace ScholarSphere

/-- Parse outcome of the `deadline` text field of a record.  `valid d` is a
date that `pd.to_datetime` parses, represented as epoch day `d`; `missing` is
an absent value (pandas `NaT`); `malformed` is a string on which
`pd.to_datetime` raises. -/
inductive Deadline where
  | missing : Deadline
  | valid : ℤ → Deadline
  | malformed : Deadline
deriving DecidableEq

/-- The fields of a scholarship record that `_prepare_features` reads. -/
structure Scholarship where
  amount : ℚ
  gpa_requirement : ℚ
  category : String
  target_demographics : List String
  deadline : Deadline
deriving DecidableEq

/-- The feature names accepted by `_prepare_features` (the strings "Amount",
"GPA Requirement", "Category", "Demographics", "Deadline"). -/
inductive Feature where
  | Amount : Feature
  | GPARequirement : Feature
  | Category : Feature
  | Demographics : Feature
  | Deadline : Feature
deriving DecidableEq

/-- Engine-instance state: the `self.label_encoders` dict, which only ever
holds the single key `'category'`.  `none` means the encoder has not been
fitted yet. -/
structure EngineState where
  categoryEncoder : Option (List String)
deriving DecidableEq

/-- `LabelEncoder.fit`: the classes are the sorted distinct values
(`np.unique`). -/
def leFit (xs : List String) : List String :=
  List.insertionSort (fun a b => a ≤ b) xs.dedup

/-- The code of value `x` under a fitted encoder: its index in the sorted
class list (`LabelEncoder.transform` on one value). -/
def leCode (classes : List String) (x : String) : ℚ :=
  ((classes.indexOf x : ℕ) : ℚ)

/-- The `Category` branch of `_prepare_features`: fit-and-transform on first
use, transform (raising on unseen labels) afterwards.  Returns the produced
columns together with the updated engine state. -/
def categoryCols (st : EngineState) (df : List Scholarship) (feats : List Feature) :
    Except String (List (List ℚ) × EngineState) :=
  if Feature.Category ∈ feats then
    match st.categoryEncoder with
    | none =>
        Except.ok ([df.map (fun r => leCode (leFit (df.map Scholarship.category)) r.category)],
          EngineState.mk (some (leFit (df.map Scholarship.category))))
    | some classes =>
        if df.all (fun r => r.category ∈ classes) then
          Except.ok ([df.map (fun r => leCode classes r.category)], st)
        else Except.error "y contains previously unseen labels"
  else Except.ok ([], st)

/-- `sorted(list(all_demographics))[:10]` over the union of the records'
demographic label sets (the code comment calls this "Top 10 most common"). -/
def commonDemographics (df : List Scholarship) : List String :=
  (List.insertionSort (fun a b => a ≤ b)
    (df.flatMap Scholarship.target_demographics).dedup).take 10

/-- The `Demographics` branch of `_prepare_features`: the diversity count
column followed by one binary column per label of `commonDemographics`. -/
def demographicsCols (df : List Scholarship) : List (List ℚ) :=
  (df.map (fun r => (r.target_demographics.length : ℚ)))
    :: (commonDemographics df).map
        (fun demo => df.map (fun r => if demo ∈ r.target_demographics then (1 : ℚ) else 0))

/-- Whether `pd.to_datetime` raises on this record's deadline field. -/
def isMalformedDeadline : Deadline → Bool
  | Deadline.malformed => true
  | _ => false

/-- `(deadline - now).dt.days` with `fillna(365)`: days until a parsed
deadline, `365` for a missing (`NaT`) one. -/
def deadlineDays (now : ℤ) : Deadline → ℚ
  | Deadline.valid day => ((day - now : ℤ) : ℚ)
  | _ => 365

/-- The `Deadline` branch of `_prepare_features`: `pd.to_datetime` raises as
soon as any single deadline string is malformed, and the surrounding
`try/except` then drops the whole column (`none`); otherwise each record gets
its days-until value, with missing deadlines filled with 365. -/
def deadlineCol (now : ℤ) (df : List Scholarship) : Option (List ℚ) :=
  if df.any (fun r => isMalformedDeadline r.deadline) then none
  else some (df.map (fun r => deadlineDays now r.deadline))

/-- The `feature_columns` list of `_prepare_features` in the source's fixed
order (Amount, GPA Requirement, Category, Demographics, Deadline), given the
columns the Category branch produced. -/
def colsOf (now : ℤ) (df : List Scholarship) (feats : List Feature)
    (catCols : List (List ℚ)) : List (List ℚ) :=
  (if Feature.Amount ∈ feats then [df.map Scholarship.amount] else [])
  ++ (if Feature.GPARequirement ∈ feats then [df.map Scholarship.gpa_requirement] else [])
  ++ catCols
  ++ (if Feature.Demographics ∈ feats then demographicsCols df else [])
  ++ (if Feature.Deadline ∈ feats then (deadlineCol now df).toList else [])

/-- `_prepare_features` up to the `np.hstack` (the raw, unscaled feature
columns), plus the updated engine state.  `ok (none, _)` is the `return None`
of the empty-column case. -/
def prepareRaw (now : ℤ) (st : EngineState) (df : List Scholarship) (feats : List Feature) :
    Except String (Option (List (List ℚ)) × EngineState) :=
  match categoryCols st df feats with
  | Except.error e => Except.error e
  | Except.ok (catCols, st') =>
    if (colsOf now df feats catCols).isEmpty then Except.ok (none, st')
    else Except.ok (some (colsOf now df feats catCols), st')

/-- Number of rows of a column-major matrix. -/
def nrows (cs : List (List ℚ)) : ℕ := (cs.headD []).length

/-- Full `_prepare_features`: the raw columns standardized per column by
`StandardScaler.fit_transform` (`scalerCol` abstracts the per-column affine
rescale, which is refit on every call). -/
def prepareFeatures (scalerCol : List ℚ → List ℚ) (now : ℤ) (st : EngineState)
    (df : List Scholarship) (feats : List Feature) :
    Except String (Option (List (List ℚ)) × EngineState) :=
  match prepareRaw now st df feats with
  | Except.error e => Except.error e
  | Except.ok (none, st') => Except.ok (none, st')
  | Except.ok (some cols, st') => Except.ok (some (cols.map scalerCol), st')

/-- `np.percentile(l, 75)` with the default linear interpolation: the value at
virtual index `0.75 * (len - 1)` of the sorted data. -/
def percentile75 (l : List ℚ) : ℚ :=
  let s := List.insertionSort (fun a b => a ≤ b) l
  let h : ℚ := (3 * ((s.length : ℚ) - 1)) / 4
  let lo : ℕ := (Int.toNat ⌊h⌋)
  let frac : ℚ := h - (lo : ℚ)
  s.getD lo 0 + frac * (s.getD (lo + 1) 0 - s.getD lo 0)

/-- The distance from point `i` to its `k`-th nearest point *including
itself*: `NearestNeighbors(n_neighbors=k).kneighbors(X)` queried on the fit
data returns each point at distance 0 to itself, so column `k-1` of its
distance output is the `k`-th smallest entry of row `i` of the full distance
matrix. -/
def kdistance (n : ℕ) (d : ℕ → ℕ → ℚ) (k : ℕ) (i : ℕ) : ℚ :=
  (List.insertionSort (fun a b => a ≤ b) ((List.range n).map (d i))).getD (k - 1) 0

/-- `_estimate_eps` on `n` points with (Euclidean) distance matrix `d`:
`k = min(4, n-1)`; `0.5` when `k ≤ 0`; else the 75th percentile of the sorted
`k`-distances, floored at `0.1`. -/
def estimateEps (n : ℕ) (d : ℕ → ℕ → ℚ) : ℚ :=
  let k := min 4 (n - 1)
  if k = 0 then 1 / 2
  else
    let dists := List.insertionSort (fun a b => a ≤ b) ((List.range n).map (kdistance n d k))
    max (percentile75 dists) (1 / 10)

/-- The eps-neighborhood of point `i` (sklearn includes the boundary and the
point itself). -/
def nbhd (n : ℕ) (d : ℕ → ℕ → ℚ) (eps : ℚ) (i : ℕ) : List ℕ :=
  (List.range n).filter (fun j => d i j ≤ eps)

/-- DBSCAN core point: at least `min_samples` points (itself included) within
`eps`. -/
def isCore (n : ℕ) (d : ℕ → ℕ → ℚ) (eps : ℚ) (minPts : ℕ) (i : ℕ) : Bool :=
  decide (minPts ≤ (nbhd n d eps i).length)

/-- The cluster-expansion loop of sklearn's `dbscan_inner`: pop a point from
the stack, label it with the current cluster id if still unlabeled, and if it
is a core point push its still-unlabeled neighbors.  `fuel` bounds the number
of iterations (every push is of a then-unlabeled point, so `(n+1)^2` fuel is
ample). -/
def expand (core : ℕ → Bool) (nb : ℕ → List ℕ) (lab : ℤ) :
    ℕ → List ℕ → List ℤ → List ℤ
  | 0, _, labels => labels
  | _ + 1, [], labels => labels
  | fuel + 1, i :: stack, labels =>
    if labels.getD i 0 = -1 then
      let labels' := labels.set i lab
      let push := if core i then (nb i).filter (fun j => labels'.getD j 0 = -1) else []
      expand core nb lab fuel (push ++ stack) labels'
    else expand core nb lab fuel stack labels

/-- The outer loop of `dbscan_inner`: scan points in index order; every
still-unlabeled core point seeds a new cluster id and is expanded. -/
def dbscanLabelsAux (core : ℕ → Bool) (nb : ℕ → List ℕ) (fuel : ℕ) :
    List ℕ → ℤ → List ℤ → List ℤ
  | [], _, labels => labels
  | i :: rest, num, labels =>
    if labels.getD i 0 = -1 ∧ core i = true then
      dbscanLabelsAux core nb fuel rest (num + 1) (expand core nb num fuel [i] labels)
    else dbscanLabelsAux core nb fuel rest num labels

/-- `DBSCAN(eps, min_samples).fit_predict` on `n` points with distance matrix
`d`: every point starts as noise (`-1`) and clusters are grown from core
points. -/
def dbscanFitPredict (n : ℕ) (d : ℕ → ℕ → ℚ) (eps : ℚ) (minPts : ℕ) : List ℤ :=
  dbscanLabelsAux (isCore n d eps minPts) (nbhd n d eps) ((n + 1) * (n + 1))
    (List.range n) 0 (List.replicate n (-1))

/-- Arithmetic mean of a list of rationals (`0` on the empty list, matching
the `0/0 = 0` convention of rational division). -/
def meanQ (l : List ℚ) : ℚ := l.sum / (l.length : ℚ)

/-- Minimum of a nonempty list of rationals (`0` on the empty list). -/
def minQ : List ℚ → ℚ
  | [] => 0
  | [x] => x
  | x :: y :: r => min x (minQ (y :: r))

/-- The silhouette value of sample `i` among the samples `idxs` with labels
`lab` and distances `d`: `0` for a singleton cluster, else `(b - a)/max a b`
with `a` the mean distance to the own cluster's other members and `b` the
minimum over other clusters of the mean distance to that cluster. -/
def silSample (d : ℕ → ℕ → ℚ) (idxs : List ℕ) (lab : ℕ → ℤ) (i : ℕ) : ℚ :=
  let own := idxs.filter (fun j => lab j = lab i)
  if own.length ≤ 1 then 0
  else
    let a := ((own.filter (fun j => j ≠ i)).map (d i)).sum / ((own.length : ℚ) - 1)
    let otherLabs := ((idxs.map lab).dedup).filter (fun c => c ≠ lab i)
    let b := minQ (otherLabs.map
      (fun c => meanQ ((idxs.filter (fun j => lab j = c)).map (d i))))
    (b - a) / max a b

/-- `silhouette_score`: the mean silhouette value over the samples. -/
def silhouetteScore (d : ℕ → ℕ → ℚ) (idxs : List ℕ) (lab : ℕ → ℤ) : ℚ :=
  meanQ (idxs.map (silSample d idxs lab))

/-- `silhouette_score` together with its input validation: sklearn raises
unless `2 ≤ n_labels ≤ n_samples - 1`. -/
def silhouetteScoreChecked (d : ℕ → ℕ → ℚ) (idxs : List ℕ) (lab : ℕ → ℤ) :
    Except String ℚ :=
  let nl := ((idxs.map lab).dedup).length
  if 2 ≤ nl ∧ nl ≤ idxs.length - 1 then Except.ok (silhouetteScore d idxs lab)
  else Except.error "Number of labels is invalid"

/-- Per-run diagnostics (`cluster_info`).  The kmeans-only entries `inertia`
and `cluster_centers` are opaque diagnostics unused by every claim and are not
modelled; methods that do not set `n_noise_points`/`eps` leave them `0`. -/
structure ClusterInfo where
  silhouette_score : ℚ
  n_clusters : ℕ
  n_noise_points : ℕ
  eps : ℚ
  method : String
  features_used : List Feature
  n_scholarships : ℕ
deriving DecidableEq

/-- The row indices of the `non_noise_mask` of `_dbscan_clustering`. -/
def nonNoiseIdxs (n : ℕ) (labels : List ℤ) : List ℕ :=
  (List.range n).filter (fun i => labels.getD i 0 ≠ -1)

/-- `_dbscan_clustering` on `n` points with distance matrix `d`: estimate
`eps`, run DBSCAN with `min_samples = max(2, n // 20)`, report the cluster
count excluding noise and the noise count, and compute the silhouette score
over the non-noise points only when more than one real cluster exists and
noise is not the entire dataset (else report 0).  An exception of
`silhouette_score` propagates (to be caught by `cluster_scholarships`). -/
def dbscanClustering (n : ℕ) (d : ℕ → ℕ → ℚ) : Except String (List ℤ × ClusterInfo) :=
  let eps := estimateEps n d
  let minPts := max 2 (n / 20)
  let labels := dbscanFitPredict n d eps minPts
  let uniq := labels.dedup
  let nClusters := uniq.length - (if (-1 : ℤ) ∈ uniq then 1 else 0)
  let nNoise := labels.count (-1)
  let silE : Except String ℚ :=
    if 1 < nClusters ∧ nNoise < labels.length then
      if 1 < (nonNoiseIdxs n labels).length then
        silhouetteScoreChecked d (nonNoiseIdxs n labels) (fun i => labels.getD i 0)
      else Except.ok 0
    else Except.ok 0
  match silE with
  | Except.error e => Except.error e
  | Except.ok s => Except.ok (labels, ClusterInfo.mk s nClusters nNoise eps "" [] 0)

/-- The abstract numeric collaborators from scikit-learn: the per-column
standardizer, the seeded KMeans label assignment, the AgglomerativeClustering
label assignment, the numeric silhouette value on a standardized matrix, and
the Euclidean distance matrix of the rows of a standardized matrix.  Theorems
assume only documented contracts about these. -/
structure SKModel where
  scalerCol : List ℚ → List ℚ
  kmeansCore : ℕ → ℕ → List (List ℚ) → List ℤ
  hierCore : ℕ → List (List ℚ) → List ℤ
  silValue : List (List ℚ) → List ℤ → ℚ
  distMat : List (List ℚ) → ℕ → ℕ → ℚ

/-- The silhouette call of `_kmeans_clustering`/`_hierarchical_clustering`,
with sklearn's validation (`2 ≤ n_labels ≤ n_samples - 1`) made explicit. -/
def silhouetteCheckedValue (M : SKModel) (cs : List (List ℚ)) (labels : List ℤ) :
    Except String ℚ :=
  if 2 ≤ labels.dedup.length ∧ labels.dedup.length ≤ nrows cs - 1 then
    Except.ok (M.silValue cs labels)
  else Except.error "Number of labels is invalid"

/-- `_kmeans_clustering`: `KMeans(n_clusters, random_state=42).fit_predict`
(which validates `1 ≤ n_clusters ≤ n_samples`) followed by
`silhouette_score`. -/
def kmeansClustering (M : SKModel) (k : ℕ) (cs : List (List ℚ)) :
    Except String (List ℤ × ClusterInfo) :=
  if k = 0 then Except.error "n_clusters must be at least 1"
  else if nrows cs < k then Except.error "n_samples should be at least n_clusters"
  else
    let labels := M.kmeansCore 42 k cs
    match silhouetteCheckedValue M cs labels with
    | Except.error e => Except.error e
    | Except.ok s => Except.ok (labels, ClusterInfo.mk s k 0 0 "" [] 0)

/-- `_hierarchical_clustering`: `AgglomerativeClustering(n_clusters)` followed
by `silhouette_score` (same validations). -/
def hierClustering (M : SKModel) (k : ℕ) (cs : List (List ℚ)) :
    Except String (List ℤ × ClusterInfo) :=
  if k = 0 then Except.error "n_clusters must be at least 1"
  else if nrows cs < k then Except.error "n_samples should be at least n_clusters"
  else
    let labels := M.hierCore k cs
    match silhouetteCheckedValue M cs labels with
    | Except.error e => Except.error e
    | Except.ok s => Except.ok (labels, ClusterInfo.mk s k 0 0 "" [] 0)

/-- The method dispatch of `cluster_scholarships`, including the
`Unsupported clustering method` raise. -/
def runMethod (M : SKModel) (method : String) (k : ℕ) (cs : List (List ℚ)) :
    Except String (List ℤ × ClusterInfo) :=
  if method = "kmeans" then kmeansClustering M k cs
  else if method = "hierarchical" then hierClustering M k cs
  else if method = "dbscan" then dbscanClustering (nrows cs) (M.distMat cs)
  else Except.error ("Unsupported clustering method: " ++ method)

/-- Fill in the metadata keys that `cluster_scholarships` adds to the info
dict after a successful run. -/
def setMeta (i : ClusterInfo) (m : String) (fs : List Feature) (n : ℕ) : ClusterInfo :=
  ClusterInfo.mk i.silhouette_score i.n_clusters i.n_noise_points i.eps m fs n

/-- The outcome of one `cluster_scholarships` call: `result = none` is the
`(None, None)` return; `diagnostic` is the message of the `st.error` call of
the `except` handler (`none` when no exception was caught). -/
structure ClusterOutcome where
  result : Option (List ℤ × ClusterInfo)
  diagnostic : Option String
deriving DecidableEq

/-- `cluster_scholarships`: empty input returns `(None, None)` with no
diagnostic; `features=None` defaults to Amount/Category/Demographics; every
exception inside the `try` block is resolved into `result = none` plus the
`Clustering failed: ...` diagnostic.  The second component is the engine state
after the call (the category encoder persists even when a later step fails,
because the Python mutation happened before the raise). -/
def clusterScholarships (M : SKModel) (now : ℤ) (st : EngineState)
    (df : List Scholarship) (method : String) (k : ℕ)
    (features : Option (List Feature)) : ClusterOutcome × EngineState :=
  if df.isEmpty then (ClusterOutcome.mk none none, st)
  else
    let feats := features.getD [Feature.Amount, Feature.Category, Feature.Demographics]
    match prepareFeatures M.scalerCol now st df feats with
    | Except.error e => (ClusterOutcome.mk none (some ("Clustering failed: " ++ e)), st)
    | Except.ok (none, st') =>
        (ClusterOutcome.mk none (some "Clustering failed: No valid features for clustering"), st')
    | Except.ok (some cs, st') =>
        match runMethod M method k cs with
        | Except.error e => (ClusterOutcome.mk none (some ("Clustering failed: " ++ e)), st')
        | Except.ok (labels, info) =>
            (ClusterOutcome.mk (some (labels, setMeta info method feats df.length)) none, st')

/-- One candidate evaluation of `recommend_optimal_clusters`: `try` KMeans and
`silhouette_score` with their validations; `none` means the candidate raised
and is skipped. -/
def tryScore (M : SKModel) (k : ℕ) (cs : List (List ℚ)) : Option ℚ :=
  if 1 ≤ k ∧ k ≤ nrows cs then
    let labels := M.kmeansCore 42 k cs
    let nl := labels.dedup.length
    if 2 ≤ nl ∧ nl ≤ nrows cs - 1 then some (M.silValue cs labels) else none
  else none

/-- Python's `max(keys, key=score)` accumulator: replace the current best only
on a strictly greater value, so the first maximizer in list order wins. -/
def argmaxAux (bk : ℕ) (bv : ℚ) : List (ℕ × ℚ) → ℕ
  | [] => bk
  | p :: r => if bv < p.2 then argmaxAux p.1 p.2 r else argmaxAux bk bv r

/-- `max(scores.keys(), key=lambda k: scores[k])` over an association list in
insertion order. -/
def argmaxFirst : List (ℕ × ℚ) → ℕ
  | [] => 0
  | p :: r => argmaxAux p.1 p.2 r

/-- The result dict of `recommend_optimal_clusters`. -/
structure RecResult where
  recommended_clusters : ℕ
  scores : List (ℕ × ℚ)
  method : String
deriving DecidableEq

/-- The score table of `recommend_optimal_clusters`: every candidate count
from 2 to `maxC` in order, keeping those that did not raise. -/
def scoreTable (M : SKModel) (cs : List (List ℚ)) (maxC : ℕ) : List (ℕ × ℚ) :=
  (List.range' 2 (maxC - 1)).filterMap (fun k => (tryScore M k cs).map (fun v => (k, v)))

/-- `recommend_optimal_clusters`: fixed default of 2 with no scores for fewer
than 4 records or no usable features or no surviving candidate; otherwise
k-means silhouette scores for every candidate from 2 to `min(10, n // 2)` and
the first-seen maximizer.  An exception of `_prepare_features` (unseen
category label) is uncaught here and propagates. -/
def recommendOptimalClusters (M : SKModel) (now : ℤ) (st : EngineState)
    (df : List Scholarship) (feats : List Feature) :
    Except String (RecResult × EngineState) :=
  if df.length < 4 then Except.ok (RecResult.mk 2 [] "default", st)
  else
    match prepareFeatures M.scalerCol now st df feats with
    | Except.error e => Except.error e
    | Except.ok (none, st') => Except.ok (RecResult.mk 2 [] "default", st')
    | Except.ok (some cs, st') =>
        let scores := scoreTable M cs (min 10 (df.length / 2))
        if scores.isEmpty then Except.ok (RecResult.mk 2 [] "default", st')
        else Except.ok (RecResult.mk (argmaxFirst scores) scores "silhouette_analysis", st')

/-- The deadline feature as the specification words it (for comparison with
the source's `deadlineCol`): each record's value is the days between now and
its parsed deadline date, with unparsable or missing deadlines defaulting to
365; the column is dropped only when the feature "cannot be parsed for the
whole column", i.e. when every record's deadline is unparsable. -/
def deadlineColSpec (now : ℤ) (df : List Scholarship) : Option (List ℚ) :=
  if df ≠ [] ∧ df.all (fun r => isMalformedDeadline r.deadline) then none
  else some (df.map (fun r => deadlineDays now r.deadline))

/-- The distance from point `i` to its 4th nearest neighbor in the ordinary
sense (the point itself excluded), as the claim words it. -/
def fourthNeighborDist (n : ℕ) (d : ℕ → ℕ → ℚ) (i : ℕ) : ℚ :=
  (List.insertionSort (fun a b => a ≤ b)
    (((List.range n).filter (fun j => j ≠ i)).map (d i))).getD 3 0

/-- The eps estimate as the claim words it (for comparison with the source's
`estimateEps`): the 75th percentile of each point's distance to its 4th
nearest neighbor, floored at 0.1. -/
def estimateEpsSpec (n : ℕ) (d : ℕ → ℕ → ℚ) : ℚ :=
  max (percentile75 ((List.range n).map (fourthNeighborDist n d))) (1 / 10)

/-- The distance from point `i` to its 3rd nearest neighbor (the point itself
excluded); with self-distance 0 this is what column `k-1 = 3` of the
`kneighbors` output actually holds. -/
def thirdNeighborDist (n : ℕ) (d : ℕ → ℕ → ℚ) (i : ℕ) : ℚ :=
  (List.insertionSort (fun a b => a ≤ b)
    (((List.range n).filter (fun j => j ≠ i)).map (d i))).getD 2 0

/-- Concrete witness data: a record with the given amount and otherwise
neutral fields. -/
def mkAmt (a : ℚ) : Scholarship := Scholarship.mk a 3 "stem" [] Deadline.missing

/-- Concrete witness data: a record with the given amount and a malformed
deadline string. -/
def mkAmtBad (a : ℚ) : Scholarship := Scholarship.mk a 3 "stem" [] Deadline.malformed

/-- Concrete witness data: a record with the given demographic labels. -/
def mkDemo (ds : List String) : Scholarship := Scholarship.mk 1 3 "stem" ds Deadline.missing

/-- A batch with 11 distinct demographic labels in which `"z"` occurs in every
record (11 times) and each of `"a"`..`"j"` occurs once. -/
def dfTop10 : List Scholarship :=
  [mkDemo ["a", "z"], mkDemo ["b", "z"], mkDemo ["c", "z"], mkDemo ["d", "z"],
   mkDemo ["e", "z"], mkDemo ["f", "z"], mkDemo ["g", "z"], mkDemo ["h", "z"],
   mkDemo ["i", "z"], mkDemo ["j", "z"], mkDemo ["z"]]

/-- A batch with one parseable and one malformed deadline. -/
def dfDeadlineMix : List Scholarship :=
  [Scholarship.mk 1000 3 "stem" [] (Deadline.valid 100),
   Scholarship.mk 2000 3 "stem" [] Deadline.malformed]

/-- Three amount-only records. -/
def dfAmt3 : List Scholarship := [mkAmt 1, mkAmt 2, mkAmt 3]

/-- Four amount-only records. -/
def dfAmt4 : List Scholarship := [mkAmt 1, mkAmt 2, mkAmt 3, mkAmt 4]

/-- Four records whose deadlines are all malformed. -/
def dfBad4 : List Scholarship := [mkAmtBad 1, mkAmtBad 2, mkAmtBad 3, mkAmtBad 4]

/-- A one-record batch with category `"stem"`. -/
def dfCatStem : List Scholarship := [Scholarship.mk 1 3 "stem" [] Deadline.missing]

/-- A one-record batch with category `"arts"` (unseen after fitting on
`dfCatStem`). -/
def dfCatArts : List Scholarship := [Scholarship.mk 1 3 "arts" [] Deadline.missing]

/-- Five collinear points whose 4th-neighbor and 4th-point-including-self
distances differ. -/
def ptsLine : List ℚ := [0, 1, 2, 3, 10]

/-- Distance matrix of `ptsLine`. -/
def dLine : ℕ → ℕ → ℚ := fun i j => |ptsLine.getD i 0 - ptsLine.getD j 0|

/-- Two coincident points and one far point. -/
def ptsPair : List ℚ := [0, 0, 10]

/-- Distance matrix of `ptsPair`. -/
def dPair : ℕ → ℕ → ℚ := fun i j => |ptsPair.getD i 0 - ptsPair.getD j 0|

/-- A concrete instantiation of the abstract seeded KMeans core used by
witnesses: row `i` gets label `i mod k` (exactly `k` nonempty groups whenever
`k ≤ n`). -/
def wCore : ℕ → ℕ → List (List ℚ) → List ℤ :=
  fun _ k cs => (List.range (nrows cs)).map (fun i => ((i % k : ℕ) : ℤ))

/-- A concrete `SKModel` instantiation used by witnesses. -/
def wModel : SKModel :=
  SKModel.mk id wCore (fun k cs => wCore 0 k cs) (fun _ _ => 0) (fun _ _ _ => 0)

unseal Rat.add Rat.mul Rat.inv Rat.sub Rat.ofScientific

theorem categoryCols_len {st : EngineState} {df : List Scholarship} {feats : List Feature}
    {cc : List (List ℚ)} {st' : EngineState}
    (h : categoryCols st df feats = Except.ok (cc, st')) :
    ∀ c ∈ cc, c.length = df.length := by
  unfold categoryCols at h
  split at h
  · split at h
    · simp only [Except.ok.injEq, Prod.mk.injEq] at h
      obtain ⟨h1, -⟩ := h
      subst h1
      intro c hc
      simp only [List.mem_singleton] at hc
      subst hc
      simp
    · split at h
      · simp only [Except.ok.injEq, Prod.mk.injEq] at h
        obtain ⟨h1, -⟩ := h
        subst h1
        intro c hc
        simp only [List.mem_singleton] at hc
        subst hc
        simp
      · cases h
  · simp only [Except.ok.injEq, Prod.mk.injEq] at h
    obtain ⟨h1, -⟩ := h
    subst h1
    intro c hc
    cases hc

theorem demographicsCols_len {df : List Scholarship} :
    ∀ c ∈ demographicsCols df, c.length = df.length := by
  intro c hc
  simp only [demographicsCols, List.mem_cons, List.mem_map] at hc
  rcases hc with rfl | ⟨demo, -, rfl⟩ <;> simp

theorem deadlineCol_len {now : ℤ} {df : List Scholarship} {c : List ℚ}
    (h : deadlineCol now df = some c) : c.length = df.length := by
  unfold deadlineCol at h
  split at h
  · cases h
  · simp only [Option.some.injEq] at h
    subst h
    simp

theorem colsOf_len {now : ℤ} {st : EngineState} {df : List Scholarship} {feats : List Feature}
    {cc : List (List ℚ)} {st' : EngineState}
    (hcc : categoryCols st df feats = Except.ok (cc, st')) :
    ∀ c ∈ colsOf now df feats cc, c.length = df.length := by
  intro c hc
  simp only [colsOf, List.mem_append] at hc
  rcases hc with ⟨⟨⟨h4 | h3⟩ | h2⟩ | h1⟩ | h0
  · split at h4 <;> simp_all
  · split at h3 <;> simp_all
  · exact categoryCols_len hcc c h2
  · split at h1
    · exact demographicsCols_len c h1
    · cases h1
  · split at h0
    · rcases ho : deadlineCol now df with - | dc
      · rw [ho] at h0; cases h0
      · rw [ho] at h0
        simp only [Option.toList, List.mem_singleton] at h0
        subst h0
        exact deadlineCol_len ho
    · cases h0

theorem prepareRaw_cols_len {now : ℤ} {st : EngineState} {df : List Scholarship}
    {feats : List Feature} {cols : List (List ℚ)} {st' : EngineState}
    (h : prepareRaw now st df feats = Except.ok (some cols, st')) :
    cols ≠ [] ∧ ∀ c ∈ cols, c.length = df.length := by
  unfold prepareRaw at h
  split at h
  · cases h
  · rename_i cc stc hcc
    split at h
    · cases h
    · rename_i hemp
      simp only [Except.ok.injEq, Prod.mk.injEq, Option.some.injEq] at h
      obtain ⟨h1, -⟩ := h
      subst h1
      exact ⟨by simpa using hemp, colsOf_len hcc⟩

theorem nrows_scaled {sc : List ℚ → List ℚ} (hscal : ∀ c, (sc c).length = c.length)
    {cols : List (List ℚ)} {N : ℕ} (hne : cols ≠ [])
    (hlen : ∀ c ∈ cols, c.length = N) : nrows (cols.map sc) = N := by
  rcases cols with - | ⟨c0, rest⟩
  · exact absurd rfl hne
  · simp only [List.map_cons, nrows, List.headD_cons]
    rw [hscal c0]
    exact hlen c0 (List.mem_cons_self c0 rest)

theorem mem_leFit {x : String} {xs : List String} : x ∈ leFit xs ↔ x ∈ xs :=
  (List.perm_insertionSort _ _).mem_iff.trans List.mem_dedup

theorem cluster_snd_eq (M : SKModel) (now : ℤ) (st : EngineState) (df : List Scholarship)
    (method : String) (k : ℕ) (fo : Option (List Feature)) (hne : df ≠ []) :
    (clusterScholarships M now st df method k fo).snd
      = match prepareFeatures M.scalerCol now st df
          (fo.getD [Feature.Amount, Feature.Category, Feature.Demographics]) with
        | Except.error _ => st
        | Except.ok (_, st') => st' := by
  unfold clusterScholarships
  rw [if_neg (by simpa using hne)]
  dsimp only
  split <;> split <;> simp_all

theorem prepareRaw_encoder_none (now : ℤ) (df : List Scholarship) (feats : List Feature)
    (hcat : Feature.Category ∈ feats) :
    (prepareRaw now (EngineState.mk none) df feats).map Prod.snd
      = Except.ok (EngineState.mk (some (leFit (df.map Scholarship.category)))) := by
  simp only [prepareRaw, categoryCols, hcat, if_true]
  repeat' split
  all_goals rfl

theorem encoder_after_first_call (M : SKModel) (now : ℤ) (df : List Scholarship)
    (method : String) (k : ℕ) (feats : List Feature) (hne : df ≠ [])
    (hcat : Feature.Category ∈ feats) :
    (clusterScholarships M now (EngineState.mk none) df method k (some feats)).snd
      = EngineState.mk (some (leFit (df.map Scholarship.category))) := by
  rw [cluster_snd_eq M now _ df method k _ hne]
  have hmap := prepareRaw_encoder_none now df feats hcat
  simp only [Option.getD_some, prepareFeatures]
  cases hres : prepareRaw now (EngineState.mk none) df feats with
  | error e => rw [hres] at hmap; cases hmap
  | ok p =>
    obtain ⟨res, st2⟩ := p
    rw [hres] at hmap
    simp only [Except.map] at hmap
    cases res <;> simpa using hmap

theorem unseen_category_fails (M : SKModel) (now : ℤ) (classes : List String)
    (df2 : List Scholarship) (method : String) (k : ℕ) (feats : List Feature)
    (hcat : Feature.Category ∈ feats) (r : Scholarship) (hr : r ∈ df2)
    (hun : r.category ∉ classes) :
    clusterScholarships M now (EngineState.mk (some classes)) df2 method k (some feats)
      = (ClusterOutcome.mk none (some "Clustering failed: y contains previously unseen labels"),
         EngineState.mk (some classes)) := by
  have hne2 : df2 ≠ [] := List.ne_nil_of_mem hr
  have hall : ¬ (df2.all (fun s => decide (s.category ∈ classes)) = true) := by
    simp only [List.all_eq_true, not_forall]
    exact ⟨r, hr, by simpa using hun⟩
  simp only [clusterScholarships, prepareFeatures, prepareRaw, colsOf, categoryCols, hcat,
    if_true, Option.getD_some]
  rw [if_neg (by simpa using hne2), if_neg hall]
  rfl

theorem runMethod_kmeans (M : SKModel) (k : ℕ) (cs : List (List ℚ)) :
    runMethod M "kmeans" k cs = kmeansClustering M k cs := by
  unfold runMethod
  rw [if_pos rfl]

theorem kmeansClustering_ok {M : SKModel} {k : ℕ} {cs : List (List ℚ)}
    {labels : List ℤ} {info : ClusterInfo}
    (h : kmeansClustering M k cs = Except.ok (labels, info)) :
    labels = M.kmeansCore 42 k cs ∧ k ≠ 0 ∧ k ≤ nrows cs
    ∧ 2 ≤ labels.dedup.length ∧ labels.dedup.length ≤ nrows cs - 1
    ∧ info = ClusterInfo.mk (M.silValue cs labels) k 0 0 "" [] 0 := by
  unfold kmeansClustering silhouetteCheckedValue at h
  split at h
  · cases h
  · rename_i hk0
    split at h
    · cases h
    · rename_i hnk
      dsimp only at h
      split at h
      · cases h
      · rename_i s heq
        rw [Except.ok.injEq, Prod.mk.injEq] at h
        obtain ⟨h1, h2⟩ := h
        subst h1
        split at heq
        · rename_i hcond
          rw [Except.ok.injEq] at heq
          subst heq
          exact ⟨rfl, hk0, Nat.le_of_not_lt hnk, hcond.1, hcond.2, h2.symm⟩
        · cases heq

theorem cluster_ok_elim {M : SKModel} {now : ℤ} {st : EngineState} {df : List Scholarship}
    {method : String} {k : ℕ} {fo : Option (List Feature)}
    {labels : List ℤ} {info : ClusterInfo}
    (h : (clusterScholarships M now st df method k fo).fst.result = some (labels, info)) :
    ∃ cs st' inf0,
      prepareFeatures M.scalerCol now st df
        (fo.getD [Feature.Amount, Feature.Category, Feature.Demographics])
          = Except.ok (some cs, st')
      ∧ runMethod M method k cs = Except.ok (labels, inf0)
      ∧ info = setMeta inf0 method
          (fo.getD [Feature.Amount, Feature.Category, Feature.Demographics]) df.length := by
  unfold clusterScholarships at h
  split at h
  · cases h
  · dsimp only at h
    split at h
    · cases h
    · cases h
    · rename_i cs st' hprep
      split at h
      · cases h
      · rename_i labs inf heq
        dsimp only at h
        rw [Option.some.injEq, Prod.mk.injEq] at h
        obtain ⟨h1, h2⟩ := h
        subst h1
        exact ⟨cs, st', inf, hprep, heq, h2.symm⟩

theorem prepareFeatures_ok_elim {sc : List ℚ → List ℚ} {now : ℤ} {st : EngineState}
    {df : List Scholarship} {feats : List Feature} {cs : List (List ℚ)} {st' : EngineState}
    (h : prepareFeatures sc now st df feats = Except.ok (some cs, st')) :
    ∃ cols, prepareRaw now st df feats = Except.ok (some cols, st') ∧ cs = cols.map sc := by
  unfold prepareFeatures at h
  split at h
  · cases h
  · simp at h
  · rename_i cols st2 heq
    rw [Except.ok.injEq, Prod.mk.injEq, Option.some.injEq] at h
    obtain ⟨h1, h2⟩ := h
    subst h2
    exact ⟨cols, heq, h1.symm⟩

theorem wCore_dedup (kk : ℕ) (cs : List (List ℚ)) (h1 : 1 ≤ kk) (h2 : kk ≤ nrows cs) :
    (wCore 42 kk cs).dedup.length = kk := by
  have hset : (wCore 42 kk cs).toFinset = (Finset.range kk).image (fun j : ℕ => (j : ℤ)) := by
    ext x
    simp only [List.mem_toFinset, wCore, List.mem_map, List.mem_range, Finset.mem_image,
      Finset.mem_range]
    constructor
    · rintro ⟨i, hi, rfl⟩
      exact ⟨i % kk, Nat.mod_lt i h1, rfl⟩
    · rintro ⟨j, hj, rfl⟩
      exact ⟨j, lt_of_lt_of_le hj h2, by rw [Nat.mod_eq_of_lt hj]⟩
  rw [← List.card_toFinset, hset,
    Finset.card_image_of_injective _ (fun a b hab => by exact_mod_cast hab), Finset.card_range]

theorem wCore_length (s kk : ℕ) (cs : List (List ℚ)) : (wCore s kk cs).length = nrows cs := by
  simp [wCore]

theorem all_mem_leFit (df : List Scholarship) :
    df.all (fun r => decide (r.category ∈ leFit (df.map Scholarship.category))) = true := by
  rw [List.all_eq_true]
  intro r hr
  simp only [decide_eq_true_eq]
  exact mem_leFit.mpr (List.mem_map_of_mem Scholarship.category hr)

theorem categoryCols_stable {st : EngineState} {df : List Scholarship} {feats : List Feature}
    {cc : List (List ℚ)} {st' : EngineState}
    (h : categoryCols st df feats = Except.ok (cc, st')) :
    categoryCols st' df feats = Except.ok (cc, st') := by
  unfold categoryCols at h ⊢
  split at h
  · rename_i hcat
    rw [if_pos hcat]
    cases henc : st.categoryEncoder with
    | none =>
      rw [henc] at h
      try dsimp only at h
      rw [Except.ok.injEq, Prod.mk.injEq] at h
      obtain ⟨h1, h2⟩ := h
      subst h2
      try dsimp only
      rw [if_pos (all_mem_leFit df), ← h1]
    | some classes =>
      rw [henc] at h
      try dsimp only at h
      split at h
      · rename_i hall
        rw [Except.ok.injEq, Prod.mk.injEq] at h
        obtain ⟨h1, h2⟩ := h
        subst h2
        rw [henc]
        try dsimp only
        rw [if_pos hall, ← h1]
      · cases h
  · rename_i hcat
    rw [if_neg hcat]
    rw [Except.ok.injEq, Prod.mk.injEq] at h
    obtain ⟨h1, h2⟩ := h
    subst h2
    rw [← h1]

theorem prepareRaw_stable {now : ℤ} {st : EngineState} {df : List Scholarship}
    {feats : List Feature} {res : Option (List (List ℚ))} {st' : EngineState}
    (h : prepareRaw now st df feats = Except.ok (res, st')) :
    prepareRaw now st' df feats = Except.ok (res, st') := by
  unfold prepareRaw at h ⊢
  split at h
  · cases h
  · rename_i cc stc hcc
    split at h
    · rename_i hemp
      rw [Except.ok.injEq, Prod.mk.injEq] at h
      obtain ⟨h1, h2⟩ := h
      subst h2
      rw [categoryCols_stable hcc]
      try dsimp only
      rw [if_pos hemp, ← h1]
    · rename_i hemp
      rw [Except.ok.injEq, Prod.mk.injEq] at h
      obtain ⟨h1, h2⟩ := h
      subst h2
      rw [categoryCols_stable hcc]
      try dsimp only
      rw [if_neg hemp, ← h1]

theorem prepareFeatures_stable {sc : List ℚ → List ℚ} {now : ℤ} {st : EngineState}
    {df : List Scholarship} {feats : List Feature} {res : Option (List (List ℚ))}
    {st' : EngineState}
    (h : prepareFeatures sc now st df feats = Except.ok (res, st')) :
    prepareFeatures sc now st' df feats = Except.ok (res, st') := by
  unfold prepareFeatures at h ⊢
  split at h
  · cases h
  · rename_i stc heq
    rw [Except.ok.injEq, Prod.mk.injEq] at h
    obtain ⟨h1, h2⟩ := h
    subst h2
    rw [prepareRaw_stable heq]
    try dsimp only
    rw [← h1]
  · rename_i cols stc heq
    rw [Except.ok.injEq, Prod.mk.injEq] at h
    obtain ⟨h1, h2⟩ := h
    subst h2
    rw [prepareRaw_stable heq]
    try dsimp only
    rw [← h1]

theorem cluster_idempotent_state (M : SKModel) (now : ℤ) (st : EngineState)
    (df : List Scholarship) (method : String) (k : ℕ) (fo : Option (List Feature)) :
    clusterScholarships M now ((clusterScholarships M now st df method k fo).snd)
        df method k fo
      = clusterScholarships M now st df method k fo := by
  by_cases hne : df = []
  · subst hne; rfl
  · rcases hprep : prepareFeatures M.scalerCol now st df
        (fo.getD [Feature.Amount, Feature.Category, Feature.Demographics]) with e | ⟨res, st'⟩
    · have hsnd : (clusterScholarships M now st df method k fo).snd = st := by
        rw [cluster_snd_eq M now st df method k fo hne, hprep]
      rw [hsnd]
    · have hsnd : (clusterScholarships M now st df method k fo).snd = st' := by
        rw [cluster_snd_eq M now st df method k fo hne, hprep]
      rw [hsnd]
      have hstab := prepareFeatures_stable hprep
      unfold clusterScholarships
      rw [if_neg (by simpa using hne), if_neg (by simpa using hne)]
      dsimp only
      rw [hprep, hstab]
      cases res <;> rfl

/-- C1: the claim says the Demographics feature adds one binary column per
each of the *top-10 most frequent* demographic labels of the batch (as does
the code's own comment "Top 10 most common"), but the code computes
`sorted(list(all_demographics))[:10]`, the 10 alphabetically first distinct
labels.  On `dfTop10` the label `"z"` occurs in all 11 records and is the
unique most frequent label, yet the selected ten are `"a"`..`"j"` (each
occurring once) and `"z"` is excluded. -/
theorem C1_top10_alphabetical_not_frequency :
    commonDemographics dfTop10 = ["a", "b", "c", "d", "e", "f", "g", "h", "i", "j"]
    ∧ "z" ∉ commonDemographics dfTop10
    ∧ ∀ l ∈ commonDemographics dfTop10,
        (dfTop10.flatMap Scholarship.target_demographics).count l
          < (dfTop10.flatMap Scholarship.target_demographics).count "z" := by
  have h : commonDemographics dfTop10 = ["a", "b", "c", "d", "e", "f", "g", "h", "i", "j"] := by
    simp [commonDemographics, dfTop10, mkDemo, List.insertionSort, List.orderedInsert,
      List.dedup]
    decide
  refine ⟨h, ?_, ?_⟩ <;> rw [h] <;> decide

/-- C2 counterexample: the claim says unparsable deadlines default to 365
per record, but one single malformed deadline string makes `pd.to_datetime`
raise, so the whole deadline column is dropped: on a batch with one parseable
(`100` days away) and one malformed deadline the code yields no column, while
the claim's reading yields `[100, 365]`. -/
theorem C2_unparsable_deadline_counterexample :
    deadlineCol 0 dfDeadlineMix = none
    ∧ deadlineColSpec 0 dfDeadlineMix = some [100, 365]
    ∧ deadlineCol 0 dfDeadlineMix ≠ deadlineColSpec 0 dfDeadlineMix := by decide

/-- C3 counterexample: the claim says `eps` is the 75th percentile of each
point's distance to its 4th nearest neighbor (floored at 0.1), but
`kneighbors` on the fit data counts the point itself at distance 0, so the
code actually uses the 3rd-nearest-neighbor distance: on the five collinear
points `0,1,2,3,10` the code yields `eps = 3` while the claim's reading
yields `10`. -/
theorem C3_eps_counterexample :
    estimateEps 5 dLine = 3
    ∧ estimateEpsSpec 5 dLine = 10
    ∧ estimateEps 5 dLine ≠ estimateEpsSpec 5 dLine := by decide

/-- C6: calling cluster on a nonempty batch with an empty feature selection
raises the configuration error inside the `try` block ("No valid features for
clustering") and is resolved at the core boundary into the `(None, None)`
outcome plus a human-readable diagnostic, never an uncaught fault — for every
method, cluster count, engine state and batch. -/
theorem C6_empty_feature_selection (M : SKModel) (now : ℤ) (st : EngineState)
    (df : List Scholarship) (method : String) (k : ℕ) (hne : df ≠ []) :
    clusterScholarships M now st df method k (some []) =
      (ClusterOutcome.mk none (some "Clustering failed: No valid features for clustering"), st) := by
  simp [clusterScholarships, prepareFeatures, prepareRaw, colsOf, categoryCols, hne]

/-- C6 witness at a concrete input. -/
theorem C6_empty_feature_selection_witness :
    dfAmt3 ≠ [] ∧
    clusterScholarships wModel 0 (EngineState.mk none) dfAmt3 "kmeans" 2 (some []) =
      (ClusterOutcome.mk none (some "Clustering failed: No valid features for clustering"),
       EngineState.mk none) :=
  ⟨by decide, C6_empty_feature_selection wModel 0 (EngineState.mk none) dfAmt3 "kmeans" 2
    (by decide)⟩

/-- C9: calling cluster on an empty sequence of records returns the
`(None, None)` outcome with no diagnostic (a normal no-data outcome, not a
failure) without raising, for every method, cluster count, feature selection
and engine state. -/
theorem C9_empty_input_no_data (M : SKModel) (now : ℤ) (st : EngineState) (method : String)
    (k : ℕ) (features : Option (List Feature)) :
    clusterScholarships M now st [] method k features = (ClusterOutcome.mk none none, st) := rfl

/-- C10: after a first cluster call with Category among the selected features
has fitted the engine's categorical encoder on `df1`, a later call on the
same engine whose batch `df2` contains a category label unseen in `df1`
returns the `(None, None)` outcome (with the unseen-labels diagnostic) even
though every record of `df2` is individually valid. -/
theorem C10_unseen_category_fails_second_call (M : SKModel) (now1 now2 : ℤ)
    (df1 df2 : List Scholarship) (m1 m2 : String) (k1 k2 : ℕ)
    (feats1 feats2 : List Feature) (r : Scholarship)
    (hne1 : df1 ≠ []) (hcat1 : Feature.Category ∈ feats1) (hcat2 : Feature.Category ∈ feats2)
    (hr : r ∈ df2) (hun : r.category ∉ df1.map Scholarship.category) :
    (clusterScholarships M now2
        (clusterScholarships M now1 (EngineState.mk none) df1 m1 k1 (some feats1)).snd
        df2 m2 k2 (some feats2)).fst
      = ClusterOutcome.mk none (some "Clustering failed: y contains previously unseen labels") := by
  rw [encoder_after_first_call M now1 df1 m1 k1 feats1 hne1 hcat1]
  rw [unseen_category_fails M now2 _ df2 m2 k2 feats2 hcat2 r hr
    (fun h => hun (mem_leFit.mp h))]

/-- C10 witness: fit on a `"stem"` batch, then cluster an `"arts"` batch. -/
theorem C10_unseen_category_fails_second_call_witness :
    dfCatStem ≠ [] ∧ Feature.Category ∈ [Feature.Category]
    ∧ Scholarship.mk 1 3 "arts" [] Deadline.missing ∈ dfCatArts
    ∧ (Scholarship.mk 1 3 "arts" [] Deadline.missing).category
        ∉ dfCatStem.map Scholarship.category
    ∧ (clusterScholarships wModel 0
        (clusterScholarships wModel 0 (EngineState.mk none) dfCatStem "kmeans" 1
          (some [Feature.Category])).snd
        dfCatArts "kmeans" 1 (some [Feature.Category])).fst
      = ClusterOutcome.mk none (some "Clustering failed: y contains previously unseen labels") :=
  ⟨by decide, by decide, by decide, by decide,
    C10_unseen_category_fails_second_call wModel 0 0 dfCatStem dfCatArts "kmeans" "kmeans" 1 1
      [Feature.Category] [Feature.Category] (Scholarship.mk 1 3 "arts" [] Deadline.missing)
      (by decide) (by decide) (by decide) (by decide) (by decide)⟩

/-- C7: calling cluster with method kmeans on records with a `cluster_count`
not less than the number of records fails — either sklearn's
`n_samples >= n_clusters` validation raises (`k > n`) or, at `k = n`, the
silhouette validation `n_labels <= n_samples - 1` raises (under the kmeans
contract of exactly `k` nonempty groups) — and the run resolves to the
caller-visible `(None, None)` failure, never a partial label set. -/
theorem C7_kmeans_excess_cluster_count (M : SKModel) (now : ℤ) (st : EngineState)
    (df : List Scholarship) (k : ℕ) (fo : Option (List Feature))
    (hscal : ∀ c, (M.scalerCol c).length = c.length)
    (hkm : ∀ kk cs, 1 ≤ kk → kk ≤ nrows cs → (M.kmeansCore 42 kk cs).dedup.length = kk)
    (hk : df.length ≤ k) :
    (clusterScholarships M now st df "kmeans" k fo).fst.result = none := by
  rcases hres : (clusterScholarships M now st df "kmeans" k fo).fst.result with - | ⟨labels, info⟩
  · rfl
  · exfalso
    obtain ⟨cs, st', inf0, hprep, hrun, -⟩ := cluster_ok_elim hres
    rw [runMethod_kmeans] at hrun
    obtain ⟨hlab, hk0, hkn, hd2, hdle, -⟩ := kmeansClustering_ok hrun
    obtain ⟨cols, hraw, hcs⟩ := prepareFeatures_ok_elim hprep
    obtain ⟨hcne, hclen⟩ := prepareRaw_cols_len hraw
    have hN : nrows cs = df.length := by
      rw [hcs]; exact nrows_scaled hscal hcne hclen
    have hdedup : labels.dedup.length = k := by
      rw [hlab]; exact hkm k cs (Nat.one_le_iff_ne_zero.mpr hk0) hkn
    omega

/-- C7 witness: 3 records with cluster_count 5. -/
theorem C7_kmeans_excess_cluster_count_witness :
    (∀ c, (wModel.scalerCol c).length = c.length)
    ∧ dfAmt3.length ≤ 5
    ∧ (clusterScholarships wModel 0 (EngineState.mk none) dfAmt3 "kmeans" 5
        (some [Feature.Amount])).fst.result = none :=
  ⟨fun c => rfl, by decide,
    C7_kmeans_excess_cluster_count wModel 0 (EngineState.mk none) dfAmt3 5
      (some [Feature.Amount]) (fun c => rfl) wCore_dedup (by decide)⟩

/-- C8: with the seed fixed at 42 by the code, a second cluster call with
method kmeans on the same engine, records and feature selection returns
exactly the same labels and metadata (silhouette score included) as the
first, and the labels partition the records into exactly `cluster_count`
groups (one label per record, exactly `k` distinct labels), assuming the
kmeans contract of exactly `k` nonempty groups and one label per row. -/
theorem C8_kmeans_determinism (M : SKModel) (now : ℤ) (st : EngineState)
    (df : List Scholarship) (k : ℕ) (fo : Option (List Feature))
    (labels : List ℤ) (info : ClusterInfo)
    (hscal : ∀ c, (M.scalerCol c).length = c.length)
    (hkm : ∀ kk cs, 1 ≤ kk → kk ≤ nrows cs → (M.kmeansCore 42 kk cs).dedup.length = kk)
    (hkml : ∀ s kk cs, (M.kmeansCore s kk cs).length = nrows cs)
    (h1 : (clusterScholarships M now st df "kmeans" k fo).fst.result = some (labels, info)) :
    (clusterScholarships M now ((clusterScholarships M now st df "kmeans" k fo).snd)
        df "kmeans" k fo).fst.result = some (labels, info)
    ∧ labels.dedup.length = k ∧ labels.length = df.length := by
  refine ⟨by rw [cluster_idempotent_state]; exact h1, ?_, ?_⟩ <;>
  · obtain ⟨cs, st', inf0, hprep, hrun, -⟩ := cluster_ok_elim h1
    rw [runMethod_kmeans] at hrun
    obtain ⟨hlab, hk0, hkn, -, -, -⟩ := kmeansClustering_ok hrun
    obtain ⟨cols, hraw, hcs⟩ := prepareFeatures_ok_elim hprep
    obtain ⟨hcne, hclen⟩ := prepareRaw_cols_len hraw
    have hN : nrows cs = df.length := by
      rw [hcs]; exact nrows_scaled hscal hcne hclen
    first
    | (rw [hlab]; exact hkm k cs (Nat.one_le_iff_ne_zero.mpr hk0) hkn)
    | (rw [hlab, hkml, hN])

/-- C8 witness: two identical kmeans calls on three records. -/
theorem C8_kmeans_determinism_witness :
    (∀ c, (wModel.scalerCol c).length = c.length)
    ∧ (clusterScholarships wModel 0 (EngineState.mk none) dfAmt3 "kmeans" 2
        (some [Feature.Amount])).fst.result
        = some ([0, 1, 0], ClusterInfo.mk 0 2 0 0 "kmeans" [Feature.Amount] 3)
    ∧ ((clusterScholarships wModel 0
          ((clusterScholarships wModel 0 (EngineState.mk none) dfAmt3 "kmeans" 2
            (some [Feature.Amount])).snd)
          dfAmt3 "kmeans" 2 (some [Feature.Amount])).fst.result
        = some ([0, 1, 0], ClusterInfo.mk 0 2 0 0 "kmeans" [Feature.Amount] 3)
      ∧ ([0, 1, 0] : List ℤ).dedup.length = 2 ∧ ([0, 1, 0] : List ℤ).length = dfAmt3.length) :=
  ⟨fun c => rfl, by decide,
    C8_kmeans_determinism wModel 0 (EngineState.mk none) dfAmt3 2 (some [Feature.Amount])
      [0, 1, 0] (ClusterInfo.mk 0 2 0 0 "kmeans" [Feature.Amount] 3)
      (fun c => rfl) wCore_dedup (fun s kk cs => wCore_length s kk cs) (by decide)⟩

theorem cluster_kmeans_succeeds {M : SKModel} {now : ℤ} {st st' : EngineState}
    {df : List Scholarship} {k : ℕ} {fo : Option (List Feature)} {cs : List (List ℚ)}
    (hscal : ∀ c, (M.scalerCol c).length = c.length)
    (hkm : ∀ kk cs, 1 ≤ kk → kk ≤ nrows cs → (M.kmeansCore 42 kk cs).dedup.length = kk)
    (hprep : prepareFeatures M.scalerCol now st df
      (fo.getD [Feature.Amount, Feature.Category, Feature.Demographics])
        = Except.ok (some cs, st'))
    (hne : df ≠ []) (hk2 : 2 ≤ k) (hkn : k ≤ df.length - 1) :
    (clusterScholarships M now st df "kmeans" k fo).fst.result
      = some (M.kmeansCore 42 k cs,
          ClusterInfo.mk (M.silValue cs (M.kmeansCore 42 k cs)) k 0 0 "kmeans"
            (fo.getD [Feature.Amount, Feature.Category, Feature.Demographics]) df.length) := by
  have hN : nrows cs = df.length := by
    obtain ⟨cols, hraw, hcs⟩ := prepareFeatures_ok_elim hprep
    obtain ⟨hcne, hclen⟩ := prepareRaw_cols_len hraw
    rw [hcs]; exact nrows_scaled hscal hcne hclen
  have hn1 : 1 ≤ df.length := by
    rcases df with - | ⟨r, rest⟩
    · exact absurd rfl hne
    · simp
  have hkled : k ≤ nrows cs := by omega
  have hdedup : (M.kmeansCore 42 k cs).dedup.length = k := hkm k cs (by omega) hkled
  unfold clusterScholarships
  rw [if_neg (by simpa using hne)]
  dsimp only
  rw [hprep]
  dsimp only
  rw [runMethod_kmeans]
  unfold kmeansClustering silhouetteCheckedValue
  rw [if_neg (by omega : ¬ k = 0), if_neg (not_lt.mpr hkled)]
  dsimp only
  rw [if_pos ⟨by omega, by omega⟩]
  rfl

/-- C2 amended: each record's deadline column value is the number of days
between now and its parsed deadline date, with *missing* deadlines defaulting
to 365; but a batch containing any single unparsable deadline string has the
whole deadline column silently dropped (`pd.to_datetime` raises and the
`except` skips the feature).  In particular, for a batch where every deadline
is unparsable, the deadline column is omitted (the prepared columns coincide
with those of the same selection without Deadline) and the run still produces
a valid clustering when at least one other feature is selected. -/
theorem C2_deadline_column_amended (M : SKModel) (now : ℤ) (st : EngineState)
    (df1 df2 : List Scholarship) (k : ℕ)
    (h1 : ∀ r ∈ df1, r.deadline ≠ Deadline.malformed)
    (h2 : ∀ r ∈ df2, r.deadline = Deadline.malformed)
    (hne2 : df2 ≠ [])
    (hscal : ∀ c, (M.scalerCol c).length = c.length)
    (hkm : ∀ kk cs, 1 ≤ kk → kk ≤ nrows cs → (M.kmeansCore 42 kk cs).dedup.length = kk)
    (hk2 : 2 ≤ k) (hkn : k ≤ df2.length - 1) :
    deadlineCol now df1 = some (df1.map (fun r => deadlineDays now r.deadline))
    ∧ deadlineCol now df2 = none
    ∧ prepareRaw now st df2 [Feature.Amount, Feature.Deadline]
        = prepareRaw now st df2 [Feature.Amount]
    ∧ (clusterScholarships M now st df2 "kmeans" k
        (some [Feature.Amount, Feature.Deadline])).fst.result.isSome = true := by
  obtain ⟨r0, hr0⟩ := List.exists_mem_of_ne_nil df2 hne2
  have hd2 : deadlineCol now df2 = none := by
    unfold deadlineCol
    rw [if_pos]
    rw [List.any_eq_true]
    exact ⟨r0, hr0, by rw [h2 r0 hr0]; rfl⟩
  have hd1 : deadlineCol now df1 = some (df1.map (fun r => deadlineDays now r.deadline)) := by
    unfold deadlineCol
    rw [if_neg]
    rw [List.any_eq_true]
    rintro ⟨r, hr, hbad⟩
    have := h1 r hr
    cases hdl : r.deadline <;> rw [hdl] at hbad this <;> simp_all [isMalformedDeadline]
  have hrawEq : prepareRaw now st df2 [Feature.Amount, Feature.Deadline]
      = prepareRaw now st df2 [Feature.Amount] := by
    unfold prepareRaw categoryCols colsOf
    rw [hd2]
    simp [Feature.Amount, List.mem_cons]
  refine ⟨hd1, hd2, hrawEq, ?_⟩
  have hraw : prepareRaw now st df2 [Feature.Amount, Feature.Deadline]
      = Except.ok (some [df2.map Scholarship.amount], st) := by
    unfold prepareRaw categoryCols colsOf
    rw [hd2]
    simp [List.mem_cons, hne2]
  have hprep : prepareFeatures M.scalerCol now st df2 [Feature.Amount, Feature.Deadline]
      = Except.ok (some [M.scalerCol (df2.map Scholarship.amount)], st) := by
    unfold prepareFeatures
    rw [hraw]
    rfl
  rw [cluster_kmeans_succeeds hscal hkm (by simpa using hprep) hne2 hk2 hkn]
  rfl

/-- C2 amended witness: a clean batch and an all-unparsable batch of four. -/
theorem C2_deadline_column_amended_witness :
    (∀ r ∈ dfAmt3, r.deadline ≠ Deadline.malformed)
    ∧ (∀ r ∈ dfBad4, r.deadline = Deadline.malformed)
    ∧ dfBad4 ≠ []
    ∧ 2 ≤ dfBad4.length - 1
    ∧ (deadlineCol 0 dfAmt3 = some (dfAmt3.map (fun r => deadlineDays 0 r.deadline))
      ∧ deadlineCol 0 dfBad4 = none
      ∧ prepareRaw 0 (EngineState.mk none) dfBad4 [Feature.Amount, Feature.Deadline]
          = prepareRaw 0 (EngineState.mk none) dfBad4 [Feature.Amount]
      ∧ (clusterScholarships wModel 0 (EngineState.mk none) dfBad4 "kmeans" 2
          (some [Feature.Amount, Feature.Deadline])).fst.result.isSome = true) :=
  ⟨by decide, by decide, by decide, by decide,
    C2_deadline_column_amended wModel 0 (EngineState.mk none) dfAmt3 dfBad4 2
      (by decide) (by decide) (by decide) (fun c => rfl) wCore_dedup (by decide) (by decide)⟩

theorem insertionSort_congr_perm {l1 l2 : List ℚ} (h : List.Perm l1 l2) :
    List.insertionSort (fun a b => a ≤ b) l1 = List.insertionSort (fun a b => a ≤ b) l2 :=
  List.eq_of_perm_of_sorted
    ((List.perm_insertionSort _ _).trans (h.trans (List.perm_insertionSort _ _).symm))
    (List.sorted_insertionSort _ _) (List.sorted_insertionSort _ _)

theorem insertionSort_idem (l : List ℚ) :
    List.insertionSort (fun a b => a ≤ b) (List.insertionSort (fun a b => a ≤ b) l)
      = List.insertionSort (fun a b => a ≤ b) l :=
  List.eq_of_perm_of_sorted (List.perm_insertionSort _ _)
    (List.sorted_insertionSort _ _) (List.sorted_insertionSort _ _)

theorem percentile75_sort (l : List ℚ) :
    percentile75 (List.insertionSort (fun a b => a ≤ b) l) = percentile75 l := by
  unfold percentile75
  rw [insertionSort_idem]

theorem sort_cons_zero {l : List ℚ} (hl : ∀ x ∈ l, 0 ≤ x) :
    List.insertionSort (fun a b => a ≤ b) (0 :: l)
      = 0 :: List.insertionSort (fun a b => a ≤ b) l := by
  refine List.eq_of_perm_of_sorted ?_ (List.sorted_insertionSort _ _) ?_
  · exact (List.perm_insertionSort _ _).trans ((List.perm_insertionSort _ l).symm.cons 0)
  · rw [List.sorted_cons]
    exact ⟨fun b hb => hl b ((List.perm_insertionSort _ l).mem_iff.mp hb),
      List.sorted_insertionSort _ _⟩

theorem kdistance_eq_thirdNeighbor {n : ℕ} (d : ℕ → ℕ → ℚ) (hd0 : ∀ i, d i i = 0)
    (hdnn : ∀ i j, 0 ≤ d i j) {i : ℕ} (hi : i < n) :
    kdistance n d 4 i = thirdNeighborDist n d i := by
  unfold kdistance thirdNeighborDist
  have h2 : (List.range n).erase i = (List.range n).filter (fun j => decide (j ≠ i)) := by
    rw [(List.nodup_range n).erase_eq_filter]
    refine List.filter_congr (fun a _ => ?_)
    by_cases h : a = i <;> simp [h]
  have hperm : List.Perm ((List.range n).map (d i))
      (0 :: (((List.range n).filter (fun j => j ≠ i)).map (d i))) := by
    have hp1 : List.Perm ((List.range n).map (d i))
        ((i :: (List.range n).erase i).map (d i)) :=
      (List.perm_cons_erase (List.mem_range.mpr hi)).map _
    have he : (i :: (List.range n).erase i).map (d i)
        = 0 :: (((List.range n).filter (fun j => j ≠ i)).map (d i)) := by
      show d i i :: ((List.range n).erase i).map (d i) = _
      rw [hd0 i, h2]
    rw [he] at hp1
    exact hp1
  have hnn : ∀ x ∈ ((List.range n).filter (fun j => j ≠ i)).map (d i), (0 : ℚ) ≤ x := by
    rintro x hx
    obtain ⟨j, -, rfl⟩ := List.mem_map.mp hx
    exact hdnn i j
  rw [insertionSort_congr_perm hperm, sort_cons_zero hnn]
  rfl

theorem estimateEps_eq_thirdNN (n : ℕ) (d : ℕ → ℕ → ℚ) (hn : 5 ≤ n)
    (hd0 : ∀ i, d i i = 0) (hdnn : ∀ i j, 0 ≤ d i j) :
    estimateEps n d
      = max (percentile75 ((List.range n).map (thirdNeighborDist n d))) (1 / 10) := by
  unfold estimateEps
  have hk : min 4 (n - 1) = 4 := by omega
  rw [hk, if_neg (by omega : ¬ (4 : ℕ) = 0)]
  dsimp only
  rw [percentile75_sort]
  congr 2
  exact List.map_congr_left
    (fun i hi => kdistance_eq_thirdNeighbor d hd0 hdnn (List.mem_range.mp hi))

theorem dbscanClustering_ok_elim {n : ℕ} {d : ℕ → ℕ → ℚ} {labels : List ℤ}
    {info : ClusterInfo} (h : dbscanClustering n d = Except.ok (labels, info)) :
    labels = dbscanFitPredict n d (estimateEps n d) (max 2 (n / 20))
    ∧ info.eps = estimateEps n d
    ∧ info.n_clusters = labels.dedup.length - (if (-1 : ℤ) ∈ labels.dedup then 1 else 0)
    ∧ info.n_noise_points = labels.count (-1)
    ∧ (¬ (1 < info.n_clusters ∧ info.n_noise_points < labels.length) →
        info.silhouette_score = 0)
    ∧ ((1 < info.n_clusters ∧ info.n_noise_points < labels.length) →
        ¬ 1 < (nonNoiseIdxs n labels).length → info.silhouette_score = 0)
    ∧ ((1 < info.n_clusters ∧ info.n_noise_points < labels.length) →
        1 < (nonNoiseIdxs n labels).length →
        info.silhouette_score
            = silhouetteScore d (nonNoiseIdxs n labels) (fun i => labels.getD i 0)
          ∧ 2 ≤ (((nonNoiseIdxs n labels).map (fun i => labels.getD i 0)).dedup).length
          ∧ (((nonNoiseIdxs n labels).map (fun i => labels.getD i 0)).dedup).length
              ≤ (nonNoiseIdxs n labels).length - 1) := by
  unfold dbscanClustering at h
  dsimp only at h
  split at h
  · cases h
  · rename_i s heq
    rw [Except.ok.injEq, Prod.mk.injEq] at h
    obtain ⟨h1, h2⟩ := h
    subst h1
    subst h2
    refine ⟨rfl, rfl, rfl, rfl, ?_, ?_, ?_⟩
    · intro hno
      dsimp only at hno
      rw [if_neg hno, Except.ok.injEq] at heq
      exact heq.symm
    · intro hyes hno
      dsimp only at hyes
      rw [if_pos hyes, if_neg hno, Except.ok.injEq] at heq
      exact heq.symm
    · intro hyes hin
      dsimp only at hyes
      rw [if_pos hyes, if_pos hin] at heq
      unfold silhouetteScoreChecked at heq
      dsimp only at heq
      split at heq
      · rename_i hcond
        rw [Except.ok.injEq] at heq
        exact ⟨heq.symm, hcond.1, hcond.2⟩
      · cases heq

/-- C3 amended: for a successful dbscan run on at least 5 points, the
neighborhood radius reported (and used) is the 75th percentile of each
point's distance to its *3rd* nearest neighbor — `kneighbors` with `k = 4`
on the fit data counts the point itself at distance 0 as its first
neighbor — floored at 0.1, and the labels come from DBSCAN with that radius
and minimum cluster size `max(2, n / 20)`. -/
theorem C3_eps_amended (n : ℕ) (d : ℕ → ℕ → ℚ) (labels : List ℤ) (info : ClusterInfo)
    (hn : 5 ≤ n) (hd0 : ∀ i, d i i = 0) (hdnn : ∀ i j, 0 ≤ d i j)
    (hrun : dbscanClustering n d = Except.ok (labels, info)) :
    info.eps = max (percentile75 ((List.range n).map (thirdNeighborDist n d))) (1 / 10)
    ∧ labels = dbscanFitPredict n d info.eps (max 2 (n / 20)) := by
  obtain ⟨hlab, heps, -⟩ := dbscanClustering_ok_elim hrun
  exact ⟨heps.trans (estimateEps_eq_thirdNN n d hn hd0 hdnn), by rw [heps, ← hlab]⟩

/-- C3 amended witness: the five collinear points of `dLine`. -/
theorem C3_eps_amended_witness :
    (5 : ℕ) ≤ 5 ∧ (∀ i, dLine i i = 0) ∧ (∀ i j, 0 ≤ dLine i j)
    ∧ dbscanClustering 5 dLine
        = Except.ok ([0, 0, 0, 0, -1], ClusterInfo.mk 0 1 1 3 "" [] 0)
    ∧ ((ClusterInfo.mk 0 1 1 3 "" [] 0).eps
        = max (percentile75 ((List.range 5).map (thirdNeighborDist 5 dLine))) (1 / 10)
      ∧ ([0, 0, 0, 0, -1] : List ℤ)
        = dbscanFitPredict 5 dLine (ClusterInfo.mk 0 1 1 3 "" [] 0).eps (max 2 (5 / 20))) :=
  ⟨by decide, fun i => by simp [dLine], fun i j => abs_nonneg _, by decide,
    C3_eps_amended 5 dLine [0, 0, 0, 0, -1] (ClusterInfo.mk 0 1 1 3 "" [] 0) (by decide)
      (fun i => by simp [dLine]) (fun i j => abs_nonneg _) (by decide)⟩

theorem expand_invariant (core : ℕ → Bool) (nb : ℕ → List ℕ) (lab : ℤ) (hlab : 0 ≤ lab) :
    ∀ (fuel : ℕ) (stack : List ℕ) (labels : List ℤ),
      (∀ x ∈ labels, x = -1 ∨ 0 ≤ x) →
      ∀ x ∈ expand core nb lab fuel stack labels, x = -1 ∨ 0 ≤ x := by
  intro fuel
  induction fuel with
  | zero => intro stack labels h; simpa [expand] using h
  | succ f ih =>
    intro stack labels h
    match stack with
    | [] => simpa [expand] using h
    | i :: rest =>
      unfold expand
      split
      · apply ih
        intro x hx
        rcases List.mem_or_eq_of_mem_set hx with h1 | h2
        · exact h x h1
        · right; rw [h2]; exact hlab
      · exact ih rest labels h

theorem expand_length (core : ℕ → Bool) (nb : ℕ → List ℕ) (lab : ℤ) :
    ∀ (fuel : ℕ) (stack : List ℕ) (labels : List ℤ),
      (expand core nb lab fuel stack labels).length = labels.length := by
  intro fuel
  induction fuel with
  | zero => intro stack labels; simp [expand]
  | succ f ih =>
    intro stack labels
    match stack with
    | [] => simp [expand]
    | i :: rest =>
      unfold expand
      split
      · rw [ih]
        exact List.length_set labels i _
      · exact ih rest labels

theorem dbscanLabelsAux_invariant (core : ℕ → Bool) (nb : ℕ → List ℕ) (fuel : ℕ) :
    ∀ (order : List ℕ) (num : ℤ) (labels : List ℤ), 0 ≤ num →
      (∀ x ∈ labels, x = -1 ∨ 0 ≤ x) →
      ∀ x ∈ dbscanLabelsAux core nb fuel order num labels, x = -1 ∨ 0 ≤ x := by
  intro order
  induction order with
  | nil => intro num labels hnum h; simpa [dbscanLabelsAux] using h
  | cons i rest ih =>
    intro num labels hnum h
    unfold dbscanLabelsAux
    split
    · exact ih (num + 1) _ (by omega) (expand_invariant core nb num hnum fuel [i] labels h)
    · exact ih num labels hnum h

theorem dbscanLabelsAux_length (core : ℕ → Bool) (nb : ℕ → List ℕ) (fuel : ℕ) :
    ∀ (order : List ℕ) (num : ℤ) (labels : List ℤ),
      (dbscanLabelsAux core nb fuel order num labels).length = labels.length := by
  intro order
  induction order with
  | nil => intro num labels; simp [dbscanLabelsAux]
  | cons i rest ih =>
    intro num labels
    unfold dbscanLabelsAux
    split
    · rw [ih, expand_length]
    · exact ih num labels

theorem dbscanFitPredict_invariant (n : ℕ) (d : ℕ → ℕ → ℚ) (eps : ℚ) (minPts : ℕ) :
    ∀ x ∈ dbscanFitPredict n d eps minPts, x = -1 ∨ 0 ≤ x := by
  apply dbscanLabelsAux_invariant _ _ _ _ 0 _ le_rfl
  intro x hx
  left
  exact List.eq_of_mem_replicate hx

theorem dbscanFitPredict_length (n : ℕ) (d : ℕ → ℕ → ℚ) (eps : ℚ) (minPts : ℕ) :
    (dbscanFitPredict n d eps minPts).length = n := by
  unfold dbscanFitPredict
  rw [dbscanLabelsAux_length]
  exact List.length_replicate n (-1)

theorem count_add_sum_erase (l : List ℤ) :
    l.count (-1) + ∑ c ∈ l.toFinset.erase (-1), l.count c = l.length := by
  have htot : ∑ c ∈ l.toFinset, l.count c = l.length := by
    simp
  by_cases h : (-1 : ℤ) ∈ l
  · have hsum : (∑ c ∈ l.toFinset.erase (-1), l.count c) + l.count (-1)
        = ∑ c ∈ l.toFinset, l.count c :=
      Finset.sum_erase_add _ _ (List.mem_toFinset.mpr h)
    rw [← htot, ← hsum]
    exact Nat.add_comm _ _
  · rw [List.count_eq_zero.mpr h,
      Finset.erase_eq_of_not_mem (fun hm => h (List.mem_toFinset.mp hm)), Nat.zero_add]
    exact htot

theorem nclusters_eq_card_erase (l : List ℤ) :
    l.dedup.length - (if (-1 : ℤ) ∈ l.dedup then 1 else 0) = (l.toFinset.erase (-1)).card := by
  by_cases h : (-1 : ℤ) ∈ l
  · rw [if_pos (List.mem_dedup.mpr h), Finset.card_erase_of_mem (List.mem_toFinset.mpr h),
      List.card_toFinset]
  · rw [if_neg (fun hm => h (List.mem_dedup.mp hm)),
      Finset.erase_eq_of_not_mem (fun hm => h (List.mem_toFinset.mp hm)), List.card_toFinset]
    simp



theorem minQ_mem : ∀ {l : List ℚ}, l ≠ [] → minQ l ∈ l
  | [x], _ => by simp [minQ]
  | x :: y :: r, _ => by
    unfold minQ
    rcases min_choice x (minQ (y :: r)) with h1 | h1 <;> rw [h1]
    · exact List.mem_cons_self _ _
    · exact List.mem_cons_of_mem _ (minQ_mem (by simp))

theorem meanQ_nonneg {l : List ℚ} (h : ∀ x ∈ l, 0 ≤ x) : 0 ≤ meanQ l :=
  div_nonneg (List.sum_nonneg h) (Nat.cast_nonneg _)

theorem meanQ_bounds {l : List ℚ} (hne : l ≠ []) (h : ∀ x ∈ l, -1 ≤ x ∧ x ≤ 1) :
    -1 ≤ meanQ l ∧ meanQ l ≤ 1 := by
  have hlen : (0 : ℚ) < l.length := by
    have h0 : 0 < l.length := List.length_pos.mpr hne
    exact_mod_cast h0
  have hup : l.sum ≤ (l.length : ℚ) := by
    calc l.sum ≤ l.length • (1 : ℚ) := List.sum_le_card_nsmul l 1 (fun x hx => (h x hx).2)
    _ = (l.length : ℚ) := by simp
  have hlo : -(l.length : ℚ) ≤ l.sum := by
    calc -(l.length : ℚ) = l.length • (-1 : ℚ) := by simp
    _ ≤ l.sum := List.card_nsmul_le_sum l (-1) (fun x hx => (h x hx).1)
  constructor
  · rw [meanQ, le_div_iff₀ hlen]
    linarith
  · rw [meanQ, div_le_one hlen]
    exact hup

theorem div_max_bounds {a b : ℚ} (ha : 0 ≤ a) (hb : 0 ≤ b) :
    -1 ≤ (b - a) / max a b ∧ (b - a) / max a b ≤ 1 := by
  by_cases hm : max a b = 0
  · have ha0 : a = 0 := le_antisymm (hm ▸ le_max_left a b) ha
    have hb0 : b = 0 := le_antisymm (hm ▸ le_max_right a b) hb
    rw [ha0, hb0]
    norm_num
  · have hpos : 0 < max a b := lt_of_le_of_ne (le_max_of_le_left ha) (Ne.symm hm)
    constructor
    · rw [le_div_iff₀ hpos]
      have h1 : a ≤ max a b := le_max_left a b
      linarith
    · rw [div_le_one hpos]
      have h1 : b ≤ max a b := le_max_right a b
      linarith

theorem exists_ne_of_two_le_dedup {l : List ℤ} (h2 : 2 ≤ l.dedup.length) (x : ℤ) :
    ∃ c ∈ l.dedup, c ≠ x := by
  have hnd : l.dedup.Nodup := l.nodup_dedup
  rcases hd : l.dedup with - | ⟨a, - | ⟨b, t⟩⟩
  · rw [hd] at h2; simp at h2
  · rw [hd] at h2; simp at h2
  · rw [hd] at hnd
    have hab : a ≠ b := by
      intro hab
      rw [List.nodup_cons] at hnd
      exact hnd.1 (hab ▸ List.mem_cons_self b t)
    by_cases hxa : a = x
    · exact ⟨b, hd ▸ List.mem_cons_of_mem a (List.mem_cons_self b t),
        fun hbx => hab (hxa.trans hbx.symm ▸ rfl)⟩
    · exact ⟨a, hd ▸ List.mem_cons_self a _, hxa⟩

theorem silSample_bounds (d : ℕ → ℕ → ℚ) (idxs : List ℕ) (lab : ℕ → ℤ) (i : ℕ)
    (hd : ∀ a b, 0 ≤ d a b)
    (hex : ∃ c ∈ (idxs.map lab).dedup, c ≠ lab i) :
    -1 ≤ silSample d idxs lab i ∧ silSample d idxs lab i ≤ 1 := by
  unfold silSample
  dsimp only
  split
  · norm_num
  · rename_i hlen
    apply div_max_bounds
    · apply div_nonneg
      · apply List.sum_nonneg
        rintro x hx
        obtain ⟨j, -, rfl⟩ := List.mem_map.mp hx
        exact hd i j
      · have h2 : 2 ≤ (idxs.filter (fun j => lab j = lab i)).length := by omega
        have h2q : (2 : ℚ) ≤ ((idxs.filter (fun j => lab j = lab i)).length : ℚ) := by
          exact_mod_cast h2
        linarith
    · obtain ⟨c, hc, hcne⟩ := hex
      have hmem : meanQ ((idxs.filter (fun j => lab j = c)).map (d i))
          ∈ (((idxs.map lab).dedup).filter (fun c => c ≠ lab i)).map
              (fun c => meanQ ((idxs.filter (fun j => lab j = c)).map (d i))) :=
        List.mem_map_of_mem _ (List.mem_filter.mpr ⟨hc, by simpa using hcne⟩)
      have hne : (((idxs.map lab).dedup).filter (fun c => c ≠ lab i)).map
          (fun c => meanQ ((idxs.filter (fun j => lab j = c)).map (d i))) ≠ [] :=
        List.ne_nil_of_mem hmem
      have hmm := minQ_mem hne
      obtain ⟨c2, -, hc2⟩ := List.mem_map.mp hmm
      rw [← hc2]
      apply meanQ_nonneg
      rintro x hx
      obtain ⟨j, -, rfl⟩ := List.mem_map.mp hx
      exact hd i j

theorem silhouetteScore_bounds (d : ℕ → ℕ → ℚ) (idxs : List ℕ) (lab : ℕ → ℤ)
    (hd : ∀ a b, 0 ≤ d a b) (hne : idxs ≠ [])
    (h2 : 2 ≤ ((idxs.map lab).dedup).length) :
    -1 ≤ silhouetteScore d idxs lab ∧ silhouetteScore d idxs lab ≤ 1 := by
  unfold silhouetteScore
  apply meanQ_bounds (by simpa using hne)
  rintro x hx
  obtain ⟨i, -, rfl⟩ := List.mem_map.mp hx
  exact silSample_bounds d idxs lab i hd (exists_ne_of_two_le_dedup h2 (lab i))



theorem one_lt_length_of_two_mem {α : Type} {l : List α} {a b : α}
    (ha : a ∈ l) (hb : b ∈ l) (hne : a ≠ b) : 1 < l.length := by
  match l with
  | [] => cases ha
  | [x] =>
    simp only [List.mem_singleton] at ha hb
    exact absurd (ha.trans hb.symm) hne
  | x :: y :: t => simp

theorem two_nonnoise_indices {labels : List ℤ} {n : ℕ} (hlen : labels.length = n)
    (hcard : 1 < (labels.toFinset.erase (-1)).card) :
    1 < (nonNoiseIdxs n labels).length := by
  obtain ⟨c1, hc1, c2, hc2, hne⟩ := Finset.one_lt_card.mp hcard
  rw [Finset.mem_erase, List.mem_toFinset] at hc1 hc2
  obtain ⟨i1, hi1, hv1⟩ := List.mem_iff_getElem.mp hc1.2
  obtain ⟨i2, hi2, hv2⟩ := List.mem_iff_getElem.mp hc2.2
  have hm1 : i1 ∈ nonNoiseIdxs n labels := by
    unfold nonNoiseIdxs
    rw [List.mem_filter, List.mem_range]
    refine ⟨by omega, ?_⟩
    rw [List.getD_eq_getElem labels 0 hi1, hv1]
    simpa using hc1.1
  have hm2 : i2 ∈ nonNoiseIdxs n labels := by
    unfold nonNoiseIdxs
    rw [List.mem_filter, List.mem_range]
    refine ⟨by omega, ?_⟩
    rw [List.getD_eq_getElem labels 0 hi2, hv2]
    simpa using hc2.1
  refine one_lt_length_of_two_mem hm1 hm2 (fun h => hne ?_)
  rw [← hv1, ← hv2]
  congr 1

/-- C4: for every successful DBSCAN run, one label per input record, each
label a non-negative cluster id or the noise label -1; noise count plus the
sum of the cluster sizes equals n; the reported cluster count is the number
of distinct non-noise labels (excluding noise); the reported silhouette score
is computed over the non-noise points exactly when more than one real cluster
exists and noise is not the whole dataset and is 0 otherwise; and the
reported silhouette score lies in [-1, 1]. -/
theorem C4_dbscan_run_properties (n : ℕ) (d : ℕ → ℕ → ℚ) (labels : List ℤ)
    (info : ClusterInfo) (hd : ∀ i j, 0 ≤ d i j)
    (hrun : dbscanClustering n d = Except.ok (labels, info)) :
    labels.length = n
    ∧ (∀ x ∈ labels, 0 ≤ x ∨ x = -1)
    ∧ info.n_noise_points + ∑ c ∈ labels.toFinset.erase (-1), labels.count c = n
    ∧ info.n_clusters = (labels.toFinset.erase (-1)).card
    ∧ info.silhouette_score =
        (if 1 < (labels.toFinset.erase (-1)).card ∧ labels.count (-1) < n
         then silhouetteScore d (nonNoiseIdxs n labels) (fun i => labels.getD i 0)
         else 0)
    ∧ -1 ≤ info.silhouette_score ∧ info.silhouette_score ≤ 1 := by
  obtain ⟨hlab, heps, hncl, hnn, hs0, hsIn, hsYes⟩ := dbscanClustering_ok_elim hrun
  have hlen : labels.length = n := by rw [hlab]; exact dbscanFitPredict_length n d _ _
  have hinv : ∀ x ∈ labels, x = -1 ∨ 0 ≤ x := by
    rw [hlab]; exact dbscanFitPredict_invariant n d _ _
  have hnclusters : info.n_clusters = (labels.toFinset.erase (-1)).card := by
    rw [hncl]; exact nclusters_eq_card_erase labels
  have hcount : info.n_noise_points + ∑ c ∈ labels.toFinset.erase (-1), labels.count c = n := by
    rw [hnn, ← hlen]; exact count_add_sum_erase labels
  refine ⟨hlen, fun x hx => (hinv x hx).symm, hcount, hnclusters, ?_⟩
  by_cases hcond : 1 < (labels.toFinset.erase (-1)).card ∧ labels.count (-1) < n
  · have hcode : 1 < info.n_clusters ∧ info.n_noise_points < labels.length := by
      rw [hnclusters, hnn, hlen]
      exact hcond
    have hin : 1 < (nonNoiseIdxs n labels).length :=
      two_nonnoise_indices hlen hcond.1
    obtain ⟨hseq, h2, hle⟩ := hsYes hcode hin
    have hbounds := silhouetteScore_bounds d (nonNoiseIdxs n labels)
      (fun i => labels.getD i 0) hd
      (fun hnil => by rw [hnil] at hin; simp at hin) h2
    rw [if_pos hcond, hseq]
    exact ⟨rfl, hbounds.1, hbounds.2⟩
  · have hcode : ¬ (1 < info.n_clusters ∧ info.n_noise_points < labels.length) := by
      rw [hnclusters, hnn, hlen]
      exact hcond
    have hz := hs0 hcode
    rw [if_neg hcond, hz]
    norm_num

/-- C4 witness: two coincident points and one far point. -/
theorem C4_dbscan_run_properties_witness :
    (∀ i j, 0 ≤ dPair i j)
    ∧ dbscanClustering 3 dPair = Except.ok ([0, 0, -1], ClusterInfo.mk 0 1 1 5 "" [] 0)
    ∧ (([0, 0, -1] : List ℤ).length = 3
      ∧ (∀ x ∈ ([0, 0, -1] : List ℤ), 0 ≤ x ∨ x = -1)
      ∧ (ClusterInfo.mk 0 1 1 5 "" [] 0).n_noise_points
          + ∑ c ∈ (([0, 0, -1] : List ℤ).toFinset.erase (-1)),
              ([0, 0, -1] : List ℤ).count c = 3
      ∧ (ClusterInfo.mk 0 1 1 5 "" [] 0).n_clusters
          = (([0, 0, -1] : List ℤ).toFinset.erase (-1)).card
      ∧ (ClusterInfo.mk 0 1 1 5 "" [] 0).silhouette_score =
          (if 1 < (([0, 0, -1] : List ℤ).toFinset.erase (-1)).card
              ∧ ([0, 0, -1] : List ℤ).count (-1) < 3
           then silhouetteScore dPair (nonNoiseIdxs 3 [0, 0, -1])
                  (fun i => ([0, 0, -1] : List ℤ).getD i 0)
           else 0)
      ∧ -1 ≤ (ClusterInfo.mk 0 1 1 5 "" [] 0).silhouette_score
      ∧ (ClusterInfo.mk 0 1 1 5 "" [] 0).silhouette_score ≤ 1) :=
  ⟨fun i j => abs_nonneg _, by decide,
    C4_dbscan_run_properties 3 dPair [0, 0, -1] (ClusterInfo.mk 0 1 1 5 "" [] 0)
      (fun i j => abs_nonneg _) (by decide)⟩

theorem argmaxAux_spec : ∀ (l : List (ℕ × ℚ)) (bk : ℕ) (bv : ℚ),
    List.Pairwise (fun p q : ℕ × ℚ => p.1 < q.1) ((bk, bv) :: l) →
    ∃ v, ((argmaxAux bk bv l, v) ∈ (bk, bv) :: l
      ∧ (∀ p ∈ (bk, bv) :: l, p.2 ≤ v)
      ∧ (∀ p ∈ (bk, bv) :: l, p.2 = v → argmaxAux bk bv l ≤ p.1))
  | [], bk, bv, _ => by
    refine ⟨bv, by simp [argmaxAux], by simp, ?_⟩
    intro p hp hpv
    rw [List.mem_singleton] at hp
    subst hp
    simp [argmaxAux]
  | q :: rest, bk, bv, hp => by
    unfold argmaxAux
    split
    · rename_i hlt
      obtain ⟨v, hmem, hmax, htie⟩ := argmaxAux_spec rest q.1 q.2 hp.of_cons
      have hq2v : q.2 ≤ v := hmax (q.1, q.2) (List.mem_cons_self _ _)
      refine ⟨v, List.mem_cons_of_mem _ hmem, ?_, ?_⟩
      · intro p hpm
        rcases List.mem_cons.mp hpm with rfl | h1
        · exact le_of_lt (lt_of_lt_of_le hlt hq2v)
        · exact hmax p h1
      · intro p hpm hpv
        rcases List.mem_cons.mp hpm with rfl | h1
        · exact absurd hpv (ne_of_lt (lt_of_lt_of_le hlt hq2v))
        · exact htie p h1 hpv
    · rename_i hnlt
      have hq2bv : q.2 ≤ bv := not_lt.mp hnlt
      have hpair : List.Pairwise (fun p q : ℕ × ℚ => p.1 < q.1) ((bk, bv) :: rest) := by
        have hsub : ((bk, bv) :: rest).Sublist ((bk, bv) :: q :: rest) :=
          (List.sublist_cons_self q rest).cons₂ (bk, bv)
        exact hp.sublist hsub
      obtain ⟨v, hmem, hmax, htie⟩ := argmaxAux_spec rest bk bv hpair
      have hbvv : bv ≤ v := hmax (bk, bv) (List.mem_cons_self _ _)
      refine ⟨v, ?_, ?_, ?_⟩
      · rcases List.mem_cons.mp hmem with h1 | h1
        · rw [h1]
          exact List.mem_cons_self _ _
        · exact List.mem_cons_of_mem _ (List.mem_cons_of_mem _ h1)
      · intro p hpm
        rcases List.mem_cons.mp hpm with rfl | h1
        · exact hbvv
        rcases List.mem_cons.mp h1 with rfl | h2
        · exact le_trans hq2bv hbvv
        · exact hmax p (List.mem_cons_of_mem _ h2)
      · intro p hpm hpv
        have hbkq : bk < p.1 → argmaxAux bk bv rest ≤ bk → argmaxAux bk bv rest ≤ p.1 :=
          fun ha hb => le_of_lt (lt_of_le_of_lt hb ha)
        rcases List.mem_cons.mp hpm with rfl | h1
        · exact htie (bk, bv) (List.mem_cons_self _ _) hpv
        rcases List.mem_cons.mp h1 with rfl | h2
        · have hveq : v = bv := le_antisymm (hpv ▸ hq2bv) hbvv
          have hr : argmaxAux bk bv rest ≤ bk :=
            htie (bk, bv) (List.mem_cons_self _ _) hveq.symm
          have hbkp : bk < p.1 := (List.pairwise_cons.mp hp).1 p (List.mem_cons_self _ _)
          exact hbkq hbkp hr
        · exact htie p (List.mem_cons_of_mem _ h2) hpv

theorem argmaxFirst_spec {l : List (ℕ × ℚ)} (hne : l ≠ [])
    (hp : List.Pairwise (fun p q : ℕ × ℚ => p.1 < q.1) l) :
    ∃ v, ((argmaxFirst l, v) ∈ l ∧ (∀ p ∈ l, p.2 ≤ v)
      ∧ (∀ p ∈ l, p.2 = v → argmaxFirst l ≤ p.1)) := by
  match l with
  | [] => exact absurd rfl hne
  | q :: rest =>
    have hspec := argmaxAux_spec rest q.1 q.2 hp
    simpa [argmaxFirst] using hspec

theorem pairwise_filterMap_keys (g : ℕ → Option ℚ) :
    ∀ l : List ℕ, l.Pairwise (· < ·) →
      List.Pairwise (fun p q : ℕ × ℚ => p.1 < q.1)
        (l.filterMap (fun k => (g k).map (fun v => (k, v)))) := by
  intro l
  induction l with
  | nil => simp
  | cons a t ih =>
    intro hp
    rw [List.filterMap_cons]
    rcases hg : g a with - | v
    · exact ih hp.of_cons
    · rw [Option.map_some']
      rw [List.pairwise_cons]
      refine ⟨?_, ih hp.of_cons⟩
      intro p hp1
      obtain ⟨k, hk, hfk⟩ := List.mem_filterMap.mp hp1
      have hpk : p.1 = k := by
        rcases hgk : g k with - | w
        · rw [hgk] at hfk; cases hfk
        · rw [hgk, Option.map_some', Option.some.injEq] at hfk
          rw [← hfk]
      rw [hpk]
      exact (List.pairwise_cons.mp hp).1 k hk

theorem scoreTable_pairwise (M : SKModel) (cs : List (List ℚ)) (maxC : ℕ) :
    List.Pairwise (fun p q : ℕ × ℚ => p.1 < q.1) (scoreTable M cs maxC) := by
  unfold scoreTable
  exact pairwise_filterMap_keys _ _ (List.pairwise_lt_range' 2 (maxC - 1) 1)

theorem scoreTable_mem (M : SKModel) (cs : List (List ℚ)) {maxC : ℕ} (hmax : 2 ≤ maxC)
    (k : ℕ) (v : ℚ) :
    (k, v) ∈ scoreTable M cs maxC ↔ 2 ≤ k ∧ k ≤ maxC ∧ tryScore M k cs = some v := by
  unfold scoreTable
  rw [List.mem_filterMap]
  constructor
  · rintro ⟨a, ha, hfa⟩
    rw [List.mem_range'_1] at ha
    rcases hga : tryScore M a cs with - | w
    · rw [hga] at hfa; cases hfa
    · rw [hga, Option.map_some', Option.some.injEq] at hfa
      obtain ⟨rfl, rfl⟩ := Prod.mk.injEq .. |>.mp hfa
      exact ⟨ha.1, by omega, hga⟩
  · rintro ⟨h2, hle, hsc⟩
    refine ⟨k, ?_, by rw [hsc]; rfl⟩
    rw [List.mem_range'_1]
    omega

/-- C5: `recommend_cluster_count` on fewer than 4 records returns the fixed
default of 2 with an empty score table; on a batch of at least 4 records with
usable features, the score table holds exactly the candidate counts from 2
to `min(10, n // 2)` whose k-means silhouette evaluation did not raise
(paired with their scores), and the recommended count is a maximizer of the
table's scores that is the lowest count among the maximizers. -/
theorem C5_recommend_optimal (M : SKModel) (now : ℤ) (st : EngineState)
    (dfa dfb : List Scholarship) (feats featsb : List Feature)
    (cs : List (List ℚ)) (st' : EngineState)
    (hsmall : dfa.length < 4)
    (hbig : 4 ≤ dfb.length)
    (hprep : prepareFeatures M.scalerCol now st dfb featsb = Except.ok (some cs, st'))
    (h2 : tryScore M 2 cs ≠ none) :
    recommendOptimalClusters M now st dfa feats = Except.ok (RecResult.mk 2 [] "default", st)
    ∧ (∀ k v, ((k, v) ∈ scoreTable M cs (min 10 (dfb.length / 2))
          ↔ 2 ≤ k ∧ k ≤ min 10 (dfb.length / 2) ∧ tryScore M k cs = some v))
    ∧ recommendOptimalClusters M now st dfb featsb
        = Except.ok (RecResult.mk (argmaxFirst (scoreTable M cs (min 10 (dfb.length / 2))))
            (scoreTable M cs (min 10 (dfb.length / 2))) "silhouette_analysis", st')
    ∧ (∃ v, ((argmaxFirst (scoreTable M cs (min 10 (dfb.length / 2))), v)
          ∈ scoreTable M cs (min 10 (dfb.length / 2))
        ∧ (∀ p ∈ scoreTable M cs (min 10 (dfb.length / 2)), p.2 ≤ v)
        ∧ (∀ p ∈ scoreTable M cs (min 10 (dfb.length / 2)),
            p.2 = v → argmaxFirst (scoreTable M cs (min 10 (dfb.length / 2))) ≤ p.1))) := by
  have hmax2 : 2 ≤ min 10 (dfb.length / 2) := by omega
  have hne : scoreTable M cs (min 10 (dfb.length / 2)) ≠ [] := by
    rcases hsc : tryScore M 2 cs with - | w
    · exact absurd hsc h2
    · exact List.ne_nil_of_mem
        ((scoreTable_mem M cs hmax2 2 w).mpr ⟨le_rfl, hmax2, hsc⟩)
  refine ⟨?_, fun k v => scoreTable_mem M cs hmax2 k v, ?_, ?_⟩
  · unfold recommendOptimalClusters
    rw [if_pos hsmall]
  · unfold recommendOptimalClusters
    rw [if_neg (by omega)]
    rw [hprep]
    dsimp only
    rw [if_neg (by simpa using hne)]
  · exact argmaxFirst_spec hne (scoreTable_pairwise M cs _)

/-- C5 witness: three records for the small case, four amount-only records
for the scored case. -/
theorem C5_recommend_optimal_witness :
    dfAmt3.length < 4 ∧ 4 ≤ dfAmt4.length
    ∧ prepareFeatures wModel.scalerCol 0 (EngineState.mk none) dfAmt4 [Feature.Amount]
        = Except.ok (some [[1, 2, 3, 4]], EngineState.mk none)
    ∧ tryScore wModel 2 [[1, 2, 3, 4]] ≠ none
    ∧ (recommendOptimalClusters wModel 0 (EngineState.mk none) dfAmt3 [Feature.Amount]
        = Except.ok (RecResult.mk 2 [] "default", EngineState.mk none)
      ∧ (∀ k v, ((k, v) ∈ scoreTable wModel [[1, 2, 3, 4]] (min 10 (dfAmt4.length / 2))
            ↔ 2 ≤ k ∧ k ≤ min 10 (dfAmt4.length / 2)
              ∧ tryScore wModel k [[1, 2, 3, 4]] = some v))
      ∧ recommendOptimalClusters wModel 0 (EngineState.mk none) dfAmt4 [Feature.Amount]
          = Except.ok (RecResult.mk
              (argmaxFirst (scoreTable wModel [[1, 2, 3, 4]] (min 10 (dfAmt4.length / 2))))
              (scoreTable wModel [[1, 2, 3, 4]] (min 10 (dfAmt4.length / 2)))
              "silhouette_analysis", EngineState.mk none)
      ∧ (∃ v, ((argmaxFirst (scoreTable wModel [[1, 2, 3, 4]] (min 10 (dfAmt4.length / 2))), v)
            ∈ scoreTable wModel [[1, 2, 3, 4]] (min 10 (dfAmt4.length / 2))
          ∧ (∀ p ∈ scoreTable wModel [[1, 2, 3, 4]] (min 10 (dfAmt4.length / 2)), p.2 ≤ v)
          ∧ (∀ p ∈ scoreTable wModel [[1, 2, 3, 4]] (min 10 (dfAmt4.length / 2)),
              p.2 = v → argmaxFirst (scoreTable wModel [[1, 2, 3, 4]]
                (min 10 (dfAmt4.length / 2))) ≤ p.1)))) :=
  ⟨by decide, by decide, by decide, by decide,
    C5_recommend_optimal wModel 0 (EngineState.mk none) dfAmt3 dfAmt4
      [Feature.Amount] [Feature.Amount] [[1, 2, 3, 4]] (EngineState.mk none)
      (by decide) (by decide) (by decide) (by decide)⟩

end ScholarSphere

